import Mathlib

set_option maxHeartbeats 1000000

/-!
Shallow embedding of goldmark-meta (`meta.go`), a YAML front-matter
extension for the goldmark Markdown parser.

Lines are modelled as lists of bytes (`List Nat`).  The external YAML
deserializer is modelled abstractly: a call to `yaml.Unmarshal` is an
`Except String α` value (success with a decoded value, or an error
message).  The goldmark document tree is modelled just as far as the
extension mutates it: the children of the document root and the children
of the metadata anchor node.
-/

/-- Byte-level space test, as goldmark `util.IsSpace` / the `spaces` set
used by `util.TrimLeftSpace` and `util.TrimRightSpace`:
space, tab, newline, vertical tab, form feed, carriage return. -/
def isSpaceByte (c : Nat) : Bool :=
  c = 32 || c = 9 || c = 10 || c = 11 || c = 12 || c = 13

/-- goldmark `util.TrimLeftSpace`: drop leading space bytes. -/
def trimLeftSpace (l : List Nat) : List Nat := l.dropWhile isSpaceByte

/-- goldmark `util.TrimRightSpace`: drop trailing space bytes. -/
def trimRightSpace (l : List Nat) : List Nat :=
  (l.reverse.dropWhile isSpaceByte).reverse

/-- goldmark `util.IsBlank`: every byte of the line is a space byte. -/
def isBlank (l : List Nat) : Bool := l.all isSpaceByte

/-- Both-sided trim, as applied at the start of `isSeparator`. -/
def trimBoth (l : List Nat) : List Nat := trimRightSpace (trimLeftSpace l)

/-- `isSeparator` from meta.go: after trimming spaces on both sides,
every remaining byte must be `'-'` (byte 45).  The loop over an empty
trimmed line returns `true`. -/
def isSeparator (line : List Nat) : Bool :=
  (trimBoth line).all (fun c => c = 45)

/-- `metaParser.Trigger` from meta.go: the single byte `'-'`. -/
def metaParser.Trigger : List Nat := [45]

/-- `metaParser.Open` from meta.go: a text block is opened (returns
`true`) only when the reader is at line number 0 and the peeked line is
a separator; otherwise no node is returned. -/
def metaParser.Open (linenum : Nat) (line : List Nat) : Bool :=
  if linenum ≠ 0 then false
  else isSeparator line

/-- `metaParser.Continue` from meta.go, reduced to its branch decision:
`true` means the line is a non-blank separator, so the reader advances
past it and the block closes without appending the line; `false` means
the line's segment is appended and parsing continues. -/
def metaParser.Continue (line : List Nat) : Bool :=
  isSeparator line && !(isBlank line)

/-- The `data` record from meta.go, parametric in the result types of
the two deserializations (`map[string]interface{}` and `*yaml.Node`).
The `Node` field (the anchor AST node) is represented separately by
`DocState.anchorChildren` in the tree model below. -/
structure data (M I : Type) where
  Map : Option M
  Items : Option I
  Error : Option String

/-- `metaParser.Close` from meta.go, parametric in the outcomes of the
two `yaml.Unmarshal` calls on the accumulated bytes: the first decodes
into the loosely-typed mapping, the second into the order-preserving
node tree.  Each failed call overwrites `Error`; each successful call
populates its own field. -/
def metaParser.Close {M I : Type}
    (unmarshalMap : Except String M) (unmarshalItems : Except String I) :
    data M I :=
  let d0 : data M I := ⟨none, none, none⟩
  let d1 := match unmarshalMap with
    | .error e => { d0 with Error := some e }
    | .ok m => { d0 with Map := some m }
  match unmarshalItems with
  | .error e => { d1 with Error := some e }
  | .ok itms => { d1 with Items := some itms }

/-- The final statement of `metaParser.Close`: the raw block's backing
node is removed from its parent exactly when `d.Error == nil`. -/
def closeRemovesNode {M I : Type}
    (unmarshalMap : Except String M) (unmarshalItems : Except String I) :
    Bool :=
  (metaParser.Close unmarshalMap unmarshalItems).Error.isNone

/-- Success test for a modelled deserialization outcome. -/
def isOkE {ε α : Type} : Except ε α → Bool
  | .ok _ => true
  | .error _ => false

/-- `Get` from meta.go: the session slot is `none` when no block was
closed in this parse session; otherwise the stored `Map` field is
returned as-is, with no error signal in the return type. -/
def Get {M I : Type} (slot : Option (data M I)) : Option M :=
  match slot with
  | none => none
  | some d => d.Map

/-- `TryGet` from meta.go: distinguishes an absent slot (`(none, none)`)
from a slot carrying a captured error (`(none, some e)`). -/
def TryGet {M I : Type} (slot : Option (data M I)) :
    Option M × Option String :=
  match slot with
  | none => (none, none)
  | some d =>
    match d.Error with
    | some e => (none, some e)
    | none => (d.Map, none)

/-- `GetItems` from meta.go: like `Get`, on the order-preserving node
tree. -/
def GetItems {M I : Type} (slot : Option (data M I)) : Option I :=
  match slot with
  | none => none
  | some d => d.Items

/-- `TryGetItems` from meta.go: like `TryGet`, on the order-preserving
node tree. -/
def TryGetItems {M I : Type} (slot : Option (data M I)) :
    Option I × Option String :=
  match slot with
  | none => (none, none)
  | some d =>
    match d.Error with
    | some e => (none, some e)
    | none => (d.Items, none)

/-- A `yaml.Node` (gopkg.in/yaml.v3): a kind tag, a scalar value and the
list of child nodes.  Kind values follow yaml.v3: `DocumentNode = 1`,
`SequenceNode = 2`, `MappingNode = 4`, `ScalarNode = 8`,
`AliasNode = 16`. -/
inductive YamlNode : Type where
  | mk (kind : Nat) (value : String) (content : List YamlNode)

/-- Kind tag of a `yaml.Node`. -/
def YamlNode.kind : YamlNode → Nat
  | .mk k _ _ => k

/-- Scalar value of a `yaml.Node`. -/
def YamlNode.value : YamlNode → String
  | .mk _ v _ => v

/-- Children of a `yaml.Node`. -/
def YamlNode.content : YamlNode → List YamlNode
  | .mk _ _ c => c

/-- Modelled from Go semantics: byte-wise (equivalently code-point-wise)
lexicographic comparison of strings, as used by Go's `fmt` package when
it sorts the keys of a map before printing it. -/
def charListLe : List Char → List Char → Bool
  | [], _ => true
  | _ :: _, [] => false
  | a :: as, b :: bs =>
    if a.toNat < b.toNat then true
    else if b.toNat < a.toNat then false
    else charListLe as bs

/-- String comparison derived from `charListLe`. -/
def strLe (a b : String) : Bool := charListLe a.toList b.toList

/-- Key-wise comparison of map entries, for the key sort performed by
Go's `fmt` when printing a map. -/
def pairLe (a b : String × String) : Prop := strLe a.1 b.1 = true

instance : DecidableRel pairLe :=
  fun a b => instDecidableEqBool (strLe a.1 b.1) true

/-- Modelled from Go semantics: `fmt.Sprintf("%v", xs)` for a
`[]string`: the elements, space-separated, in brackets. -/
def goSliceFmt (xs : List String) : String := "[" ++ " ".intercalate xs ++ "]"

/-- Modelled from Go semantics: `m[k] = v` on a `map[string]string`,
with the map represented as an association list (the list order is
irrelevant to `goMapFmt`, which sorts). -/
def goUpdate (m : List (String × String)) (k v : String) :
    List (String × String) :=
  if m.any (fun q => q.1 = k) then m.map (fun q => if q.1 = k then (k, v) else q)
  else m ++ [(k, v)]

/-- The map-construction loop of the `MappingNode` case of
`valueNodeToString`: the key/value pairs are inserted starting from the
LAST declared pair and ending with the first (`for i := len; i > 1;
i = i - 2`), so on duplicate keys the first declared pair wins. -/
def goBuildMap (ps : List (String × String)) : List (String × String) :=
  ps.reverse.foldl (fun m p => goUpdate m p.1 p.2) []

/-- Modelled from Go semantics: `fmt.Sprintf("%v", m)` for a
`map[string]string`: since Go 1.12 the entries are printed sorted by
key, as `map[k1:v1 k2:v2]`. -/
def goMapFmt (m : List (String × String)) : String :=
  "map[" ++ " ".intercalate
    ((List.insertionSort pairLe m).map (fun q => q.1 ++ ":" ++ q.2)) ++ "]"

/-- Consecutive pairing of a list: `[k1, v1, k2, v2, ...]` becomes
`[(k1, v1), (k2, v2), ...]`; a trailing odd element is dropped. -/
def pairsOf {α : Type} : List α → List (α × α)
  | k :: v :: rest => (k, v) :: pairsOf rest
  | _ => []

mutual

/-- `valueNodeToString` from meta.go on a non-nil node: sequences print
like Go string slices; mappings with an odd number of content entries
print the broken-mapping placeholder, even ones are loaded into a
`map[string]string` (in reverse declaration order) and printed with
`fmt`; scalars print their value; any other kind prints the
unsupported-kind placeholder with the numeric kind. -/
def vstr : YamlNode → String
  | .mk kind value content =>
    if kind = 2 then
      goSliceFmt (vstrList content)
    else if kind = 4 then
      if content.length % 2 ≠ 0 then "<broken mapping node>"
      else goMapFmt (goBuildMap (pairsOf (vstrList content)))
    else if kind = 8 then value
    else "<do not support yaml node kind '" ++ toString kind ++ "'>"

/-- Element-wise `valueNodeToString` over a content list. -/
def vstrList : List YamlNode → List String
  | [] => []
  | x :: xs => vstr x :: vstrList xs

end

/-- `valueNodeToString` from meta.go, including the nil-pointer guard:
a nil node prints as the empty string. -/
def valueNodeToString : Option YamlNode → String
  | none => ""
  | some n => vstr n

/-- A node of the goldmark document tree, as far as this extension
observes or mutates it: a `gast.String` inline node (text plus the
code flag), an extension table (its header cells, body cells and the
number of alignment entries), or any pre-existing node, kept opaque. -/
inductive DocNode : Type where
  | strNode (text : String) (isCode : Bool)
  | tableNode (header : List String) (body : List String) (alignCount : Nat)
  | other (id : Nat)
deriving DecidableEq

/-- The mutable tree state seen by `astTransformer.Transform`: the
children of the document root, and the children of the metadata anchor
node (`d.Node`). -/
structure DocState where
  docChildren : List DocNode
  anchorChildren : List DocNode
deriving DecidableEq

/-- `astTransformer.Transform` from meta.go.  `none` as a result models
a Go runtime panic (an out-of-range `Content` index).  With an absent
slot the tree is untouched.  With a captured error, one code-flagged
`gast.String` holding `<!-- err -->` is appended to the anchor node.
Otherwise the items tree is unwrapped from its document node, non-map
roots are ignored, and a two-row table (header = stringified keys in
declaration order, body = stringified values in declaration order) is
inserted before the first child of the document root. -/
def astTransformer.Transform {M : Type}
    (slot : Option (data M YamlNode)) (st : DocState) : Option DocState :=
  match slot with
  | none => some st
  | some d =>
    match d.Error with
    | some e =>
      some { st with anchorChildren :=
        st.anchorChildren ++ [DocNode.strNode ("<!-- " ++ e ++ " -->") true] }
    | none =>
      match GetItems slot with
      | none => some st
      | some meta0 =>
        match (if meta0.kind = 1 then meta0.content.head? else some meta0) with
        | none => none
        | some m =>
          if m.kind ≠ 4 then some st
          else
            let aligns := if m.content.length % 2 = 1 then 1 else 0
            if m.content.length % 2 = 1 then none
            else
              let kvs := pairsOf m.content
              some { st with docChildren :=
                (DocNode.tableNode (kvs.map (fun p => vstr p.1))
                  (kvs.map (fun p => vstr p.2)) aligns) :: st.docChildren }

/-- Key-strict variant of `pairLe`: key-wise `≤` together with distinct
keys.  Used to show that the key sort of `goMapFmt` has a unique result
on entry lists with pairwise-distinct keys. -/
def pairLtKey (a b : String × String) : Prop := pairLe a b ∧ a.1 ≠ b.1

/-- Content list of a YAML mapping node made of the given key/value
pairs in declaration order: each key becomes a scalar node, each value
node follows its key. -/
def flatPairs : List (String × YamlNode) → List YamlNode
  | [] => []
  | p :: rest => YamlNode.mk 8 p.1 [] :: p.2 :: flatPairs rest

theorem all_dropWhile_iff (p : Nat → Bool) (l : List Nat) :
    (∀ c ∈ l.dropWhile p, p c) ↔ (∀ c ∈ l, p c) := by
  induction l with
  | nil => simp
  | cons a as ih =>
    by_cases h : p a
    · simpa [List.dropWhile_cons, h] using ih
    · simp [List.dropWhile_cons, h]

theorem trimBoth_eq_nil_iff (l : List Nat) :
    (trimBoth l = []) ↔ (isBlank l = true) := by
  simp only [trimBoth, trimRightSpace, trimLeftSpace, isBlank,
    List.reverse_eq_nil_iff, List.dropWhile_eq_nil_iff, List.mem_reverse,
    List.all_eq_true]
  exact all_dropWhile_iff isSpaceByte l

theorem charListLe_cons {x y : Char} {xs ys : List Char} :
    charListLe (x :: xs) (y :: ys) = true ↔
      (x.toNat < y.toNat ∨ (x.toNat = y.toNat ∧ charListLe xs ys = true)) := by
  simp only [charListLe]
  by_cases h1 : x.toNat < y.toNat
  · simp [h1]
  · by_cases h2 : y.toNat < x.toNat
    · rw [if_neg h1, if_pos h2]
      constructor
      · intro h; exact absurd h (by simp)
      · intro h; exfalso; rcases h with h | ⟨h, _⟩ <;> omega
    · have hxy : x.toNat = y.toNat := by omega
      simp [h1, h2, hxy]

theorem charListLe_total (a b : List Char) :
    charListLe a b = true ∨ charListLe b a = true := by
  induction a generalizing b with
  | nil => left; rfl
  | cons x xs ih =>
    cases b with
    | nil => right; rfl
    | cons y ys =>
      rw [charListLe_cons, charListLe_cons]
      rcases Nat.lt_trichotomy x.toNat y.toNat with h | h | h
      · exact Or.inl (Or.inl h)
      · rcases ih ys with h1 | h1
        · exact Or.inl (Or.inr ⟨h, h1⟩)
        · exact Or.inr (Or.inr ⟨h.symm, h1⟩)
      · exact Or.inr (Or.inl h)

theorem charListLe_trans {a b c : List Char}
    (h1 : charListLe a b = true) (h2 : charListLe b c = true) :
    charListLe a c = true := by
  induction a generalizing b c with
  | nil => rfl
  | cons x xs ih =>
    cases b with
    | nil => simp [charListLe] at h1
    | cons y ys =>
      cases c with
      | nil => simp [charListLe] at h2
      | cons z zs =>
        rw [charListLe_cons] at h1 h2 ⊢
        rcases h1 with h1 | ⟨hxy, h1⟩ <;> rcases h2 with h2 | ⟨hyz, h2⟩
        · exact Or.inl (by omega)
        · exact Or.inl (by omega)
        · exact Or.inl (by omega)
        · exact Or.inr ⟨by omega, ih h1 h2⟩

theorem charListLe_antisymm {a b : List Char}
    (h1 : charListLe a b = true) (h2 : charListLe b a = true) : a = b := by
  induction a generalizing b with
  | nil =>
    cases b with
    | nil => rfl
    | cons y ys => simp [charListLe] at h2
  | cons x xs ih =>
    cases b with
    | nil => simp [charListLe] at h1
    | cons y ys =>
      rw [charListLe_cons] at h1 h2
      rcases h1 with h1 | ⟨hxy, h1⟩ <;> rcases h2 with h2 | ⟨hyx, h2⟩
      · exact absurd h1 (by omega)
      · exact absurd h1 (by omega)
      · exact absurd h2 (by omega)
      · have hx : x = y := Char.eq_of_val_eq (UInt32.toNat.inj hxy)
        subst hx
        exact congrArg (x :: ·) (ih h1 h2)

theorem strLe_antisymm {a b : String}
    (h1 : strLe a b = true) (h2 : strLe b a = true) : a = b :=
  String.toList_inj.mp (charListLe_antisymm h1 h2)

instance : IsTotal (String × String) pairLe :=
  ⟨fun a b => charListLe_total a.1.toList b.1.toList⟩

instance : IsTrans (String × String) pairLe :=
  ⟨fun _ _ _ h1 h2 => charListLe_trans h1 h2⟩

instance : IsAntisymm (String × String) pairLtKey :=
  ⟨fun _ _ h1 h2 => absurd (strLe_antisymm h1.1 h2.1) h1.2⟩

theorem sorted_pairLtKey {l : List (String × String)}
    (hs : l.Sorted pairLe) (hn : (l.map Prod.fst).Nodup) :
    l.Sorted pairLtKey :=
  hs.and (List.pairwise_map.mp hn)

theorem insertionSort_eq_of_perm_nodupkeys {l1 l2 : List (String × String)}
    (hperm : l1.Perm l2) (h : (l1.map Prod.fst).Nodup) :
    List.insertionSort pairLe l1 = List.insertionSort pairLe l2 := by
  have h2 : (l2.map Prod.fst).Nodup := ((hperm.map Prod.fst).nodup_iff).mp h
  have hp1 := List.perm_insertionSort pairLe l1
  have hp2 := List.perm_insertionSort pairLe l2
  have hn1 : ((List.insertionSort pairLe l1).map Prod.fst).Nodup :=
    ((hp1.map Prod.fst).nodup_iff).mpr h
  have hn2 : ((List.insertionSort pairLe l2).map Prod.fst).Nodup :=
    ((hp2.map Prod.fst).nodup_iff).mpr h2
  exact List.eq_of_perm_of_sorted
    (r := pairLtKey)
    (hp1.trans (hperm.trans hp2.symm))
    (sorted_pairLtKey (List.sorted_insertionSort pairLe l1) hn1)
    (sorted_pairLtKey (List.sorted_insertionSort pairLe l2) hn2)

/-- C1: `Get` returns the parsed mapping only when it is present and no
capture error was recorded; an absent session slot or a failed block
deserialization yields `none`, and `Get`'s return type carries no error
signal.  The hypothesis is the deserializer contract stated by the spec:
the two `yaml.Unmarshal` calls run on identical bytes and agree on
error/success. -/
theorem C1_get_mapping_silent {M I : Type}
    (unmarshalMap : Except String M) (unmarshalItems : Except String I)
    (hagree : isOkE unmarshalMap = isOkE unmarshalItems) :
    Get (none : Option (data M I)) = none
    ∧ Get (some (metaParser.Close unmarshalMap unmarshalItems)) =
        (metaParser.Close unmarshalMap unmarshalItems).Map
    ∧ (isOkE unmarshalMap = false →
        Get (some (metaParser.Close unmarshalMap unmarshalItems)) = none)
    ∧ ((metaParser.Close unmarshalMap unmarshalItems).Error.isSome = true →
        Get (some (metaParser.Close unmarshalMap unmarshalItems)) = none) := by
  cases unmarshalMap <;> cases unmarshalItems <;>
    simp_all [Get, metaParser.Close, isOkE]

/-- Witness for C1, at a failing and at a succeeding session. -/
theorem C1_get_mapping_silent_witness :
    (isOkE (Except.error "bad" : Except String Nat) =
      isOkE (Except.error "bad" : Except String Nat))
    ∧ (Get (none : Option (data Nat Nat)) = none
      ∧ Get (some (metaParser.Close (Except.error "bad" : Except String Nat)
          (Except.error "bad" : Except String Nat))) =
        (metaParser.Close (Except.error "bad" : Except String Nat)
          (Except.error "bad" : Except String Nat)).Map
      ∧ (isOkE (Except.error "bad" : Except String Nat) = false →
          Get (some (metaParser.Close (Except.error "bad" : Except String Nat)
            (Except.error "bad" : Except String Nat))) = none)
      ∧ ((metaParser.Close (Except.error "bad" : Except String Nat)
            (Except.error "bad" : Except String Nat)).Error.isSome = true →
          Get (some (metaParser.Close (Except.error "bad" : Except String Nat)
            (Except.error "bad" : Except String Nat))) = none)) :=
  ⟨rfl, C1_get_mapping_silent (Except.error "bad") (Except.error "bad") rfl⟩

/-- C3: a metadata block is only opened at line 0; at any other line
number `metaParser.Open` returns no block, even for a line that is a
valid separator, while at line 0 it opens a block exactly on separator
lines. -/
theorem C3_open_only_line_zero (linenum : Nat) (line : List Nat)
    (h : linenum ≠ 0) :
    metaParser.Open linenum line = false
    ∧ metaParser.Open 0 line = isSeparator line := by
  constructor
  · simp [metaParser.Open, h]
  · simp [metaParser.Open]

/-- Witness for C3 at line number 1 with the canonical delimiter `---`. -/
theorem C3_open_only_line_zero_witness :
    (1 ≠ 0)
    ∧ (metaParser.Open 1 [45, 45, 45] = false
      ∧ metaParser.Open 0 [45, 45, 45] = isSeparator [45, 45, 45]) :=
  ⟨by decide, C3_open_only_line_zero 1 [45, 45, 45] (by decide)⟩

/-- C4, counterexample: the claim asserts that `isSeparator` is false on
a line that is empty after trimming, but `isSeparator` of the empty line
is `true` (its loop body never runs), so the claimed equivalence fails
at the empty line. -/
theorem C4_isSeparator_counterexample :
    ¬ (isSeparator [] = true ↔
      (trimBoth [] ≠ [] ∧ (trimBoth []).all (fun c => c = 45) = true)) := by
  decide

/-- C4, amended: `isSeparator` alone holds exactly when every byte of
the trimmed line is `'-'`, which includes empty and all-whitespace
lines; the non-emptiness half of the claim is enforced by the separate
blank-line check in `metaParser.Continue`, whose combined test
(`isSeparator(line) && !util.IsBlank(line)`) holds exactly when the
trimmed line is non-empty and consists solely of `'-'` bytes. -/
theorem C4_continue_close_test (line : List Nat) :
    (metaParser.Continue line = true ↔
      (trimBoth line ≠ [] ∧ (trimBoth line).all (fun c => c = 45) = true))
    ∧ isSeparator line = (trimBoth line).all (fun c => c = 45) := by
  constructor
  · have hb := trimBoth_eq_nil_iff line
    cases hB : isBlank line
    · have hne : trimBoth line ≠ [] := by
        intro h
        exact absurd (hb.mp h) (by simp [hB])
      simp [metaParser.Continue, isSeparator, hB, hne]
    · have he : trimBoth line = [] := hb.mpr hB
      simp [metaParser.Continue, isSeparator, hB, he]
  · rfl

/-- C5: at block close, the backing node is excised from the visible
tree exactly when no deserialization error was captured, i.e. exactly
when both deserializations succeeded; on failure the node stays in
place. -/
theorem C5_close_removal {M I : Type}
    (unmarshalMap : Except String M) (unmarshalItems : Except String I) :
    closeRemovesNode unmarshalMap unmarshalItems =
      (isOkE unmarshalMap && isOkE unmarshalItems)
    ∧ (closeRemovesNode unmarshalMap unmarshalItems = true ↔
        (metaParser.Close unmarshalMap unmarshalItems).Error = none) := by
  cases unmarshalMap <;> cases unmarshalItems <;>
    simp [closeRemovesNode, metaParser.Close, isOkE]

/-- C6: `TryGet` returns `(none, none)` for an absent slot,
`(none, some e)` for a slot with a captured error `e`, and the stored
mapping with no error otherwise. -/
theorem C6_tryget_spec {M I : Type} (slot : Option (data M I)) :
    (slot = none → TryGet slot = (none, none))
    ∧ (∀ d e, slot = some d → d.Error = some e → TryGet slot = (none, some e))
    ∧ (∀ d, slot = some d → d.Error = none → TryGet slot = (d.Map, none)) := by
  refine ⟨fun h => by simp [h, TryGet], fun d e hs he => ?_, fun d hs he => ?_⟩
  · subst hs; simp [TryGet, he]
  · subst hs; simp [TryGet, he]

/-- Witness for C6, exercising the captured-error branch. -/
theorem C6_tryget_spec_witness :
    TryGet (some (⟨none, none, some "boom"⟩ : data Nat Nat)) =
      (none, some "boom") :=
  (C6_tryget_spec (some (⟨none, none, some "boom"⟩ : data Nat Nat))).2.1
    ⟨none, none, some "boom"⟩ "boom" rfl rfl

/-- C7: when the slot carries a capture error, the transformer appends
exactly one code-flagged `gast.String` child holding `<!-- err -->` to
the anchor node and returns without touching the document children (no
table is built or inserted). -/
theorem C7_transform_error_marker {M : Type}
    (d : data M YamlNode) (st : DocState) (e : String)
    (h : d.Error = some e) :
    astTransformer.Transform (some d) st =
      some { st with anchorChildren :=
        st.anchorChildren ++ [DocNode.strNode ("<!-- " ++ e ++ " -->") true] } := by
  simp [astTransformer.Transform, h]

/-- Witness for C7 on a one-node document with a raw anchor child. -/
theorem C7_transform_error_marker_witness :
    astTransformer.Transform
      (some (⟨none, none, some "bad yaml"⟩ : data Nat YamlNode))
      ⟨[DocNode.other 0], [DocNode.other 1]⟩ =
      some ⟨[DocNode.other 0],
        [DocNode.other 1, DocNode.strNode "<!-- bad yaml -->" true]⟩ :=
  C7_transform_error_marker ⟨none, none, some "bad yaml"⟩
    ⟨[DocNode.other 0], [DocNode.other 1]⟩ "bad yaml" rfl

/-- C9: the raw bytes are deserialized twice and either failure sets the
shared error field, so both `TryGet` and `TryGetItems` return
`(none, error)`, even though the representation whose deserialization
succeeded is still populated in the store. -/
theorem C9_either_failure_poisons_both {M I : Type}
    (unmarshalMap : Except String M) (unmarshalItems : Except String I)
    (h : isOkE unmarshalMap = false ∨ isOkE unmarshalItems = false) :
    (metaParser.Close unmarshalMap unmarshalItems).Error.isSome = true
    ∧ TryGet (some (metaParser.Close unmarshalMap unmarshalItems)) =
        (none, (metaParser.Close unmarshalMap unmarshalItems).Error)
    ∧ TryGetItems (some (metaParser.Close unmarshalMap unmarshalItems)) =
        (none, (metaParser.Close unmarshalMap unmarshalItems).Error)
    ∧ (isOkE unmarshalMap = true →
        (metaParser.Close unmarshalMap unmarshalItems).Map.isSome = true)
    ∧ (isOkE unmarshalItems = true →
        (metaParser.Close unmarshalMap unmarshalItems).Items.isSome = true) := by
  cases unmarshalMap <;> cases unmarshalItems <;>
    simp_all [metaParser.Close, TryGet, TryGetItems, isOkE]

/-- Witness for C9: the mapping decodes but the node tree fails. -/
theorem C9_either_failure_poisons_both_witness :
    (isOkE (Except.ok 7 : Except String Nat) = false ∨
      isOkE (Except.error "tree" : Except String Nat) = false)
    ∧ ((metaParser.Close (Except.ok 7 : Except String Nat)
          (Except.error "tree" : Except String Nat)).Error.isSome = true
      ∧ TryGet (some (metaParser.Close (Except.ok 7 : Except String Nat)
            (Except.error "tree" : Except String Nat))) =
          (none, (metaParser.Close (Except.ok 7 : Except String Nat)
            (Except.error "tree" : Except String Nat)).Error)
      ∧ TryGetItems (some (metaParser.Close (Except.ok 7 : Except String Nat)
            (Except.error "tree" : Except String Nat))) =
          (none, (metaParser.Close (Except.ok 7 : Except String Nat)
            (Except.error "tree" : Except String Nat)).Error)
      ∧ (isOkE (Except.ok 7 : Except String Nat) = true →
          (metaParser.Close (Except.ok 7 : Except String Nat)
            (Except.error "tree" : Except String Nat)).Map.isSome = true)
      ∧ (isOkE (Except.error "tree" : Except String Nat) = true →
          (metaParser.Close (Except.ok 7 : Except String Nat)
            (Except.error "tree" : Except String Nat)).Items.isSome = true)) :=
  ⟨Or.inr rfl,
    C9_either_failure_poisons_both (Except.ok 7) (Except.error "tree")
      (Or.inr rfl)⟩

/-- C10: `valueNodeToString` is total: a nil node prints as the empty
string, and any node whose kind is not sequence (2), mapping (4) or
scalar (8) prints the explicit unsupported-kind placeholder. -/
theorem C10_value_node_total (k : Nat) (v : String) (c : List YamlNode)
    (h2 : k ≠ 2) (h4 : k ≠ 4) (h8 : k ≠ 8) :
    valueNodeToString none = ""
    ∧ vstr (YamlNode.mk k v c) =
        "<do not support yaml node kind '" ++ toString k ++ "'>" := by
  constructor
  · rfl
  · simp [vstr, h2, h4, h8]

/-- Witness for C10 at kind 1 (a document node). -/
theorem C10_value_node_total_witness :
    ((1 : Nat) ≠ 2 ∧ (1 : Nat) ≠ 4 ∧ (1 : Nat) ≠ 8)
    ∧ (valueNodeToString none = ""
      ∧ vstr (YamlNode.mk 1 "" []) =
          "<do not support yaml node kind '" ++ toString (1 : Nat) ++ "'>") :=
  ⟨by decide,
    C10_value_node_total 1 "" [] (by decide) (by decide) (by decide)⟩

theorem vstr_scalar (v : String) (c : List YamlNode) :
    vstr (YamlNode.mk 8 v c) = v := by
  simp [vstr]

theorem flatPairs_length (kvs : List (String × YamlNode)) :
    (flatPairs kvs).length = 2 * kvs.length := by
  induction kvs with
  | nil => rfl
  | cons p rest ih =>
    simp only [flatPairs, List.length_cons, ih]
    omega

theorem pairsOf_flatPairs (kvs : List (String × YamlNode)) :
    pairsOf (flatPairs kvs) =
      kvs.map (fun p => (YamlNode.mk 8 p.1 [], p.2)) := by
  induction kvs with
  | nil => rfl
  | cons p rest ih => simp [flatPairs, pairsOf, ih]

theorem pairsOf_vstrList_flatPairs (kvs : List (String × YamlNode)) :
    pairsOf (vstrList (flatPairs kvs)) =
      kvs.map (fun p => (p.1, vstr p.2)) := by
  induction kvs with
  | nil => rfl
  | cons p rest ih => simp [flatPairs, vstrList, pairsOf, ih, vstr_scalar]

theorem goUpdate_not_mem (m : List (String × String)) (k v : String)
    (h : ∀ q ∈ m, q.1 ≠ k) : goUpdate m k v = m ++ [(k, v)] := by
  have ha : m.any (fun q => q.1 = k) = false := by
    simp only [List.any_eq_false, decide_eq_true_eq]
    exact h
  simp [goUpdate, ha]

theorem foldl_goUpdate_fresh (ls : List (String × String)) :
    ∀ acc : List (String × String),
    (∀ p ∈ ls, ∀ q ∈ acc, q.1 ≠ p.1) →
    (ls.map Prod.fst).Nodup →
    ls.foldl (fun m p => goUpdate m p.1 p.2) acc = acc ++ ls := by
  induction ls with
  | nil => intro acc _ _; simp
  | cons p rest ih =>
    intro acc h h2
    rw [List.foldl_cons, goUpdate_not_mem acc p.1 p.2
      (fun q hq => h p (List.mem_cons_self p rest) q hq)]
    rw [ih (acc ++ [p]) ?_ (List.nodup_cons.mp h2).2]
    · simp
    · intro r hr q hq
      rcases List.mem_append.mp hq with hq1 | hq2
      · exact h r (List.mem_cons_of_mem p hr) q hq1
      · have hq' : q = p := by simpa using hq2
        intro hqr
        have hpr : p.1 = r.1 := by rw [← hq', hqr]
        have hm : p.1 ∈ rest.map Prod.fst := by
          rw [hpr]
          exact List.mem_map_of_mem Prod.fst hr
        exact (List.nodup_cons.mp h2).1 hm

theorem goBuildMap_nodup (ps : List (String × String))
    (h : (ps.map Prod.fst).Nodup) : goBuildMap ps = ps.reverse := by
  have h2 : (ps.reverse.map Prod.fst).Nodup := by
    rw [List.map_reverse]
    exact List.nodup_reverse.mpr h
  have hf := foldl_goUpdate_fresh ps.reverse [] (by simp) h2
  unfold goBuildMap
  rw [hf, List.nil_append]

/-- C2, counterexample: the mapping `{a: 1, b: 2}` (declaration order
`a` before `b`) prints as `map[a:1 b:2]` — Go's `fmt` prints map entries
sorted by key — not as `map[b:2 a:1]`, which reverse declaration order
would produce. -/
theorem C2_reverse_order_counterexample :
    vstr (YamlNode.mk 4 "" [YamlNode.mk 8 "a" [], YamlNode.mk 8 "1" [],
      YamlNode.mk 8 "b" [], YamlNode.mk 8 "2" []]) = "map[a:1 b:2]"
    ∧ "map[a:1 b:2]" ≠ "map[b:2 a:1]" := by
  constructor
  · rfl
  · decide

/-- C2, amended: a mapping node with an even number of content entries
(and, here, scalar keys that are pairwise distinct) is formatted as a
brace-delimited, space-separated `key:value` list of the recursively
stringified pairs, with the pairs ordered by lexicographically sorted
key — Go's map formatting — rather than in reverse declaration order;
the reverse-order construction loop is only observable through which
value survives a duplicate key. -/
theorem C2_map_fmt_sorted_by_key (kvs : List (String × YamlNode))
    (h : (kvs.map Prod.fst).Nodup) :
    vstr (YamlNode.mk 4 "" (flatPairs kvs)) =
      "map[" ++ " ".intercalate
        ((List.insertionSort pairLe (kvs.map (fun p => (p.1, vstr p.2)))).map
          (fun q => q.1 ++ ":" ++ q.2)) ++ "]" := by
  have hlen : (flatPairs kvs).length % 2 = 0 := by
    rw [flatPairs_length]; omega
  have hcomp : (Prod.fst ∘ fun p : String × YamlNode => (p.1, vstr p.2)) =
      Prod.fst := funext (fun p => rfl)
  have hkeys : ((kvs.map (fun p => (p.1, vstr p.2))).map Prod.fst).Nodup := by
    rw [List.map_map, hcomp]
    exact h
  have hrevkeys :
      (((kvs.map (fun p => (p.1, vstr p.2))).reverse.map Prod.fst)).Nodup := by
    rw [List.map_reverse]
    exact List.nodup_reverse.mpr hkeys
  simp only [vstr, hlen]
  norm_num
  rw [pairsOf_vstrList_flatPairs, goBuildMap_nodup _ hkeys, goMapFmt,
    insertionSort_eq_of_perm_nodupkeys (List.reverse_perm _) hrevkeys]

/-- Witness for C2's amended statement, on the two-pair mapping
`{a: 1, b: 2}`. -/
theorem C2_map_fmt_sorted_by_key_witness :
    (([("a", YamlNode.mk 8 "1" []), ("b", YamlNode.mk 8 "2" [])].map
      Prod.fst).Nodup)
    ∧ vstr (YamlNode.mk 4 ""
        (flatPairs [("a", YamlNode.mk 8 "1" []), ("b", YamlNode.mk 8 "2" [])])) =
      "map[" ++ " ".intercalate
        ((List.insertionSort pairLe
          ([("a", YamlNode.mk 8 "1" []), ("b", YamlNode.mk 8 "2" [])].map
            (fun p => (p.1, vstr p.2)))).map
          (fun q => q.1 ++ ":" ++ q.2)) ++ "]" :=
  ⟨by decide, C2_map_fmt_sorted_by_key _ (by decide)⟩

/-- C8: with the table transformer enabled and a block of scalar
key/value pairs (wrapped in the deserializer's document node), the
rewriter builds a two-row table whose header cells are the keys in
declaration order and whose body cells are the scalar values verbatim,
and inserts it as the first child of the document root; the anchor is
untouched. -/
theorem C8_transform_scalar_table {M : Type} (mo : Option M)
    (kvs : List (String × String)) (st : DocState) :
    astTransformer.Transform
      (some (⟨mo,
        some (YamlNode.mk 1 ""
          [YamlNode.mk 4 ""
            (flatPairs (kvs.map (fun p => (p.1, YamlNode.mk 8 p.2 []))))]),
        none⟩ : data M YamlNode)) st =
      some { st with docChildren :=
        (DocNode.tableNode (kvs.map Prod.fst) (kvs.map Prod.snd) 0)
          :: st.docChildren } := by
  have hlen :
      (flatPairs (kvs.map (fun p => (p.1, YamlNode.mk 8 p.2 [])))).length % 2
        = 0 := by
    rw [flatPairs_length]; omega
  simp [astTransformer.Transform, GetItems, YamlNode.kind, YamlNode.content,
    hlen, pairsOf_flatPairs, List.map_map, vstr_scalar, Function.comp]

/-- Witness for C4's amended statement at the line `---`. -/
theorem C4_continue_close_test_witness :
    (metaParser.Continue [45, 45, 45] = true ↔
      (trimBoth [45, 45, 45] ≠ [] ∧
        (trimBoth [45, 45, 45]).all (fun c => c = 45) = true))
    ∧ isSeparator [45, 45, 45] =
        (trimBoth [45, 45, 45]).all (fun c => c = 45) :=
  C4_continue_close_test [45, 45, 45]

/-- Witness for C5 at a failing node-tree deserialization. -/
theorem C5_close_removal_witness :
    closeRemovesNode (Except.ok 1 : Except String Nat)
        (Except.error "x" : Except String Nat) =
      (isOkE (Except.ok 1 : Except String Nat) &&
        isOkE (Except.error "x" : Except String Nat))
    ∧ (closeRemovesNode (Except.ok 1 : Except String Nat)
          (Except.error "x" : Except String Nat) = true ↔
        (metaParser.Close (Except.ok 1 : Except String Nat)
          (Except.error "x" : Except String Nat)).Error = none) :=
  C5_close_removal (Except.ok 1) (Except.error "x")

/-- Witness for C8 on the one-pair block `Title: X`. -/
theorem C8_transform_scalar_table_witness :
    astTransformer.Transform
      (some (⟨none,
        some (YamlNode.mk 1 ""
          [YamlNode.mk 4 ""
            (flatPairs ([("Title", "X")].map
              (fun p => (p.1, YamlNode.mk 8 p.2 []))))]),
        none⟩ : data Nat YamlNode)) ⟨[DocNode.other 5], []⟩ =
      some ⟨(DocNode.tableNode ([("Title", "X")].map Prod.fst)
          ([("Title", "X")].map Prod.snd) 0) :: [DocNode.other 5], []⟩ :=
  C8_transform_scalar_table none [("Title", "X")] ⟨[DocNode.other 5], []⟩
